import Mathlib

/-!
Shallow embedding of the Shelby / NanoClaw host service (TypeScript sources)
and proofs about its documented behaviour.

Conventions used throughout:
* JavaScript strings are modelled as Lean `String` / `List Char`
  (all relevant data is ASCII, so UTF-16 length coincides with the
  character count).
* JavaScript falsiness of strings (`s || d`) is modelled explicitly
  (`none` and the empty string are falsy).
* Database helpers from `src/db.ts` (not part of the source tree) are
  modelled from the spec as plain table operations on an explicit store.
-/

namespace Shelby

/-! ### JavaScript character classes and string helpers -/

/-- JS regex `\w` (ASCII word character). -/
def isWordChar (c : Char) : Bool :=
  c.isAlpha || c.isDigit || c = '_'

/-- JS regex `\s` (whitespace; the ASCII part, which is all the code uses). -/
def isSpaceChar (c : Char) : Bool :=
  c = ' ' || c = '\t' || c = '\n' || c = '\r' ||
  c = Char.ofNat 11 || c = Char.ofNat 12 || c = Char.ofNat 160

/-- `String.prototype.trim` on a character list. -/
def jsTrim (l : List Char) : List Char :=
  ((l.dropWhile isSpaceChar).reverse.dropWhile isSpaceChar).reverse

/-- `a || b` for an optional string (JS: `undefined`/`null` and `""` are falsy). -/
def jsOrD (a : Option String) (b : String) : String :=
  match a with
  | none => b
  | some s => if s = "" then b else s

/-- JS truthiness of an optional string. -/
def jsTruthyS (a : Option String) : Bool :=
  match a with
  | none => false
  | some s => s ≠ ""

/-- `s.substring(0, n)`. -/
def strTake (n : Nat) (s : String) : String :=
  ⟨s.toList.take n⟩

/-! ### Case-insensitive matching primitives (JS `i` flag, ASCII) -/

/-- Case-insensitive equality of two character lists. -/
def ciEq : List Char → List Char → Bool
  | [], [] => true
  | a :: as, b :: bs => (a.toLower == b.toLower) && ciEq as bs
  | _, _ => false

/-- `ciPref p l`: the pattern `p` matches a prefix of `l`, case-insensitively. -/
def ciPref : List Char → List Char → Bool
  | [], _ => true
  | _ :: _, [] => false
  | a :: as, b :: bs => (a.toLower == b.toLower) && ciPref as bs

/-- Exact (case-sensitive) prefix test on character lists. -/
def eqPref : List Char → List Char → Bool
  | [], _ => true
  | _ :: _, [] => false
  | a :: as, b :: bs => (a == b) && eqPref as bs

/-- `haystack.includes(needle)` on character lists. -/
def eqSubList : List Char → List Char → Bool
  | n, [] => eqPref n []
  | n, c :: t => eqPref n (c :: t) || eqSubList n t

/-! ### Heartbeat suppression (`src/heartbeat-scheduler.ts`, `isHeartbeatOk`) -/

/-- The sentinel token of the heartbeat protocol. -/
def sentinel : List Char := "HEARTBEAT_OK".toList

/-- `\b` to the left of a position whose preceding character is `prev`
(`none` = start of string). -/
def bBefore (prev : Option Char) : Bool :=
  match prev with
  | none => true
  | some c => !isWordChar c

/-- `\b` to the right of a position followed by the characters `l`. -/
def bAfter (l : List Char) : Bool :=
  match l.head? with
  | none => true
  | some c => !isWordChar c

/-- `/\bHEARTBEAT_OK\b/i.test` on the characters `l`, where `prev` is the
character just before `l` in the scanned string. -/
def hasHB (prev : Option Char) : List Char → Bool
  | [] => false
  | c :: cs =>
    (bBefore prev && ciPref sentinel (c :: cs) && bAfter ((c :: cs).drop sentinel.length))
    || hasHB (some c) cs

/-- One step of `.replace(/\bHEARTBEAT_OK\b/gi, '')`: remove every
(non-overlapping, leftmost) match.  `fuel` bounds the recursion so the
function stays structurally recursive; `stripHB` supplies enough fuel. -/
def stripHBA : Nat → Option Char → List Char → List Char
  | 0, _, l => l
  | _ + 1, _, [] => []
  | fuel + 1, prev, c :: cs =>
    if bBefore prev && ciPref sentinel (c :: cs) && bAfter ((c :: cs).drop sentinel.length) then
      stripHBA fuel (((c :: cs).take sentinel.length).getLast?) ((c :: cs).drop sentinel.length)
    else
      c :: stripHBA fuel (some c) cs

/-- `.replace(/\bHEARTBEAT_OK\b/gi, '')`. -/
def stripHB (l : List Char) : List Char := stripHBA l.length none l

/-- Characters kept by `.replace(/[^\w\s]/g, '')` (punctuation removal). -/
def hbKeep (c : Char) : Bool := isWordChar c || isSpaceChar c

/-- The remaining content after stripping the sentinel, removing punctuation
and trimming. -/
def heartbeatRemaining (content : List Char) : List Char :=
  jsTrim ((stripHB content).filter hbKeep)

/-- `isHeartbeatOk(message, maxChars)` from `src/heartbeat-scheduler.ts`. -/
def isHeartbeatOk (message : String) (maxChars : Nat) : Bool :=
  if hasHB none (jsTrim message.toList) then
    decide ((heartbeatRemaining (jsTrim message.toList)).length ≤ maxChars)
  else false

/-- The character just before the current scan position: the last character
of `pre` if there is one, else the character `prev` preceding the scanned
fragment. -/
def lastOr (prev : Option Char) (pre : List Char) : Option Char :=
  match pre with
  | [] => prev
  | c :: cs => (c :: cs).getLast?

/-- Declarative form of "`l`, preceded by `prev`, contains a `\b`-delimited,
case-insensitive occurrence of the sentinel". -/
def SentinelOccursFrom (prev : Option Char) (l : List Char) : Prop :=
  ∃ pre s post, l = pre ++ s ++ post ∧ ciEq sentinel s = true ∧
    bBefore (lastOr prev pre) = true ∧ bAfter post = true

/-- The response contains the sentinel token (as the regex sees it). -/
def SentinelOccurs (l : List Char) : Prop := SentinelOccursFrom none l

/-! ### Trigger pattern (`src/config.ts`: `escapeRegex`, `TRIGGER_PATTERN`) -/

/-- The characters escaped by `escapeRegex` (JS class `[.*+?^${}()|[\]\\]`),
which is exactly the set of regex metacharacters. -/
def metachars : List Char :=
  ['.', '*', '+', '?', '^', '$', Char.ofNat 123, Char.ofNat 125,
   '(', ')', '|', '[', ']', '\\']

/-- `escapeRegex` from `src/config.ts`: prefix every metacharacter with a
backslash. -/
def escapeRegex : List Char → List Char
  | [] => []
  | c :: cs =>
    if c ∈ metachars then '\\' :: c :: escapeRegex cs
    else c :: escapeRegex cs

/-- Reader for a regex fragment that consists only of literals:
an escaped metacharacter denotes itself, a plain non-metacharacter denotes
itself, and anything else (a bare metacharacter, a dangling backslash, or a
backslash escape that is not a metacharacter) is not a plain literal
fragment and is rejected. -/
def parseLits : List Char → Option (List Char)
  | [] => some []
  | c :: rest =>
    if c = '\\' then
      match rest with
      | [] => none
      | d :: rest' => if d ∈ metachars then (parseLits rest').map (d :: ·) else none
    else if c ∈ metachars then none
    else (parseLits rest).map (c :: ·)

/-- The pattern string the code builds:
`new RegExp(`^@${escapeRegex(ASSISTANT_NAME)}\\b`, 'i')`. -/
def triggerPatternString (name : String) : String :=
  "^@" ++ String.mk (escapeRegex name.toList) ++ "\\b"

/-- Compile a pattern of the shape `^<literals>\b` to its literal character
sequence; any other shape (in particular a body that is not a plain literal
fragment) is rejected. -/
def compileTrigger (pat : List Char) : Option (List Char) :=
  match pat with
  | '^' :: rest =>
    match rest.reverse with
    | 'b' :: '\\' :: midRev => parseLits midRev.reverse
    | _ => none
  | _ => none

def isWordOpt : Option Char → Bool
  | none => false
  | some c => isWordChar c

/-- Matching an anchored case-insensitive literal sequence followed by `\b`
against a subject string. -/
def litMatcher (lits s : List Char) : Bool :=
  ciPref lits s &&
    ((isWordOpt (s.take lits.length).getLast?) != isWordOpt (s.drop lits.length).head?)

/-- `TRIGGER_PATTERN.test(s)`: compile the constructed pattern and run it
(`none` = the pattern does not compile to the supported literal shape). -/
def triggerPatternTest (name s : String) : Option Bool :=
  (compileTrigger (triggerPatternString name).toList).map
    (fun lits => litMatcher lits s.toList)

/-- `TRIGGER_PATTERN.test` as the code uses it (the pattern always compiles,
see `trigger_pattern_c9`). -/
def triggerTest (name s : String) : Bool :=
  litMatcher ('@' :: name.toList) s.toList

/-- The spec-side reading of the trigger pattern: the string begins with `@`
followed by the literal assistant name (compared case-insensitively) at a
word boundary. -/
def TriggerSpec (name s : String) : Prop :=
  ∃ w rest, s.toList = '@' :: w ++ rest ∧ ciEq name.toList w = true ∧
    (isWordOpt ('@' :: w).getLast? != isWordOpt rest.head?) = true

/-! ### Configuration paths (`src/config.ts`) -/

/-- Absolute, normalised paths are modelled as their component lists. -/
abbrev PathC := List String

/-- `MOUNT_ALLOWLIST_PATH = path.join(HOME_DIR, '.config', 'nanoclaw',
'mount-allowlist.json')`. -/
def mountAllowlistPath (home : PathC) : PathC :=
  home ++ [".config", "nanoclaw", "mount-allowlist.json"]

/-- `STORE_DIR = path.resolve(PROJECT_ROOT, 'store')`. -/
def storeDir (root : PathC) : PathC := root ++ ["store"]

/-- `GROUPS_DIR = path.resolve(PROJECT_ROOT, 'groups')`. -/
def groupsDir (root : PathC) : PathC := root ++ ["groups"]

/-- `DATA_DIR = path.resolve(PROJECT_ROOT, 'data')`. -/
def dataDir (root : PathC) : PathC := root ++ ["data"]

/-- `p` lies in the subtree rooted at `d` (including `d` itself). -/
def inSubtree (d p : PathC) : Prop := d <+: p

/-! ### File watchers (`FileWatcher.start`, `CollaborationWatcher`) -/

structure FileChangeEvent where
  path : String
  event : Option String
  deriving DecidableEq, Repr

/-- Temporary / hidden file names that the watchers skip. -/
def isTempName (f : String) : Bool :=
  f.startsWith "." || f.endsWith "~" || f.endsWith ".tmp"

/-- `filepath.split('/').pop() || ''` (the `FileWatcher` basename). -/
def fwFilename (filepath : String) : String :=
  (filepath.splitOn "/").getLastD ""

/-- Node `path.basename` for POSIX paths: drop trailing separators, then
take the part after the last separator (`"/"` for an all-separator path). -/
def posixBasename (p : String) : String :=
  let r := p.toList.reverse.dropWhile (· = '/')
  if r.isEmpty then
    if p.toList.isEmpty then "" else "/"
  else
    String.mk (r.takeWhile (· ≠ '/')).reverse

/-- The `FileWatcher` line handler (`src/unnamed/part_004`, `rl.on('line')`):
parse `%w%f|%e`, skip empty paths and temporary names, otherwise produce the
emitted `change` event. -/
def fileWatcherLine (line : String) : Option FileChangeEvent :=
  let parts := line.splitOn "|"
  let fp := parts.headD ""
  if fp = "" then none
  else if isTempName (fwFilename fp) then none
  else some ⟨fp, parts.get? 1⟩

/-- The `CollaborationWatcher.startFswatch` line handler: the line is the
full path; skip empty paths and temporary names. -/
def collabFswatchLine (filepath : String) : Option FileChangeEvent :=
  if filepath = "" then none
  else if isTempName (posixBasename filepath) then none
  else some ⟨filepath, some "modified"⟩

/-- The `CollaborationWatcher.startInotifywait` line handler. -/
def collabInotifyLine (line : String) : Option FileChangeEvent :=
  let parts := line.splitOn "|"
  let fp := parts.headD ""
  if fp = "" then none
  else if isTempName (posixBasename fp) then none
  else some ⟨fp, parts.get? 1⟩

/-! ### The persistent store

`src/db.ts` is not part of the source tree; its operations are modelled
from the spec (§3 data model, §6 scheduler persistence) as plain table
operations on an explicit state. -/

structure RegGroup where
  name : String
  folder : String
  trigger : String
  added_at : String
  /-- tri-state: the JS field may be `true`, `false` or absent. -/
  requiresTrigger : Option Bool
  hasCollabMount : Bool
  deriving DecidableEq, Repr

structure PendingEntry where
  chat_jid : String
  contact_info : String
  first_message : String
  deriving DecidableEq, Repr

structure BlockedEntry where
  chat_jid : String
  contact_info : String
  reason : String
  deriving DecidableEq, Repr

structure StoredMsg where
  id : String
  chat_jid : String
  sender : String
  sender_name : String
  content : String
  timestamp : String
  is_from_me : Bool
  deriving DecidableEq, Repr

structure ChatMeta where
  jid : String
  ts : String
  name : String
  deriving DecidableEq, Repr

structure Store where
  registered : List (String × RegGroup)
  pending : List PendingEntry
  blocked : List BlockedEntry
  chats : List ChatMeta
  messages : List StoredMsg
  deriving DecidableEq, Repr

/-- Modelled from the spec: `getPendingApproval(jid)` looks the chat up in
the pending-approval table. -/
def getPendingApproval (st : Store) (jid : String) : Option PendingEntry :=
  st.pending.find? (fun e => e.chat_jid = jid)

/-- Modelled from the spec: `addPendingApproval` inserts a row into the
pending-approval table. -/
def addPendingApproval (st : Store) (jid info firstMsg : String) : Store :=
  { st with pending := st.pending ++ [⟨jid, info, firstMsg⟩] }

/-- Modelled from the spec: `removePendingApproval` deletes the chat's row
from the pending-approval table. -/
def removePendingApproval (st : Store) (jid : String) : Store :=
  { st with pending := st.pending.filter (fun e => e.chat_jid ≠ jid) }

/-- Modelled from the spec: `addBlockedContact` inserts a row into the
blocked-contacts table. -/
def addBlockedContact (st : Store) (jid info reason : String) : Store :=
  { st with blocked := st.blocked ++ [⟨jid, info, reason⟩] }

/-- Modelled from the spec: `isContactBlocked` tests membership in the
blocked-contacts table. -/
def isContactBlocked (st : Store) (jid : String) : Bool :=
  st.blocked.any (fun e => e.chat_jid = jid)

/-- Modelled from the spec: the registered-groups registry, keyed by jid. -/
def getRegisteredGroup (st : Store) (jid : String) : Option RegGroup :=
  (st.registered.find? (fun e => e.1 = jid)).map (·.2)

/-- Modelled from the spec: `registerGroup(jid, group)` sets the registry
entry for `jid`. -/
def registerGroup (st : Store) (jid : String) (g : RegGroup) : Store :=
  { st with registered := (jid, g) :: st.registered.filter (fun e => e.1 ≠ jid) }

/-- Modelled from the spec: `storeChatMetadata` upserts chat metadata. -/
def storeChatMetadata (st : Store) (jid ts name : String) : Store :=
  { st with chats := ⟨jid, ts, name⟩ :: st.chats.filter (fun e => e.jid ≠ jid) }

/-- Modelled from the spec: `storeMessageDirect` appends to the messages
table. -/
def storeMessageDirect (st : Store) (m : StoredMsg) : Store :=
  { st with messages := st.messages ++ [m] }

/-! ### The iMessage channel (`src/channels/imessage.ts`) -/

/-- One row of the `SELECT` over `~/Library/Messages/chat.db`.
Timestamp formatting (Apple epoch arithmetic and `toISOString`) is
abstracted to `toString` of the raw `date`; no claim depends on it. -/
structure MsgRow where
  rowid : Nat
  guid : String
  text : Option String
  sender : Option String
  chat_identifier : Option String
  date : Nat
  is_from_me : Bool
  service : String
  deriving DecidableEq, Repr

def normalizeChatGuid (contactId : String) : String := "imsg:" ++ contactId

/-- `sender.split('@')[0]`. -/
def senderShortName (s : String) : String := (s.splitOn "@").headD s

/-- The chat jid `IMessageChannel.processMessage` derives for a row. -/
def chanChatJid (msg : MsgRow) : String :=
  normalizeChatGuid (jsOrD msg.chat_identifier (jsOrD msg.sender "unknown"))

/-- `IMessageChannel.processMessage`.  `reg` is the result of
`opts.registeredGroups()`.  Returns the new store and the payload passed to
`opts.onMessage` (or `none` when the callback does not fire).  The
`onApprovalRequest` callback only notifies; its effect is not part of the
store. -/
def processMessage (reg : List (String × RegGroup)) (st : Store) (msg : MsgRow) :
    Store × Option StoredMsg :=
  if msg.is_from_me then (st, none)
  else if msg.service ≠ "iMessage" then (st, none)
  else
    let sender := jsOrD msg.sender "unknown"
    let chatId := jsOrD msg.chat_identifier sender
    let chatJid := normalizeChatGuid chatId
    let text := jsOrD msg.text ""
    let ts := toString msg.date
    let st1 := storeChatMetadata st chatJid ts chatId
    if isContactBlocked st1 chatJid then (st1, none)
    else if ((reg.find? (fun e => e.1 = chatJid)).isSome : Bool) then
      let m : StoredMsg :=
        ⟨msg.guid, chatJid, sender, senderShortName sender, text, ts, false⟩
      (storeMessageDirect st1 m, some m)
    else if (getPendingApproval st1 chatJid).isNone then
      (addPendingApproval st1 chatJid chatId text, none)
    else (st1, none)

/-- The body of `pollMessages`' `for` loop: process each queried row in
order, updating `lastProcessedRowId` to the row's `ROWID` after each step.
Returns the final `lastProcessedRowId`, the final store and the rows for
which `onMessage` fired, in firing order. -/
def processLoop (reg : List (String × RegGroup)) :
    Nat → Store → List MsgRow → Nat × Store × List MsgRow
  | last, st, [] => (last, st, [])
  | _last, st, m :: ms =>
    let r := processMessage reg st m
    let rest := processLoop reg m.rowid r.1 ms
    (rest.1, rest.2.1, (if r.2.isSome then [m] else []) ++ rest.2.2)

/-- The poll query: `WHERE m.service = 'iMessage' AND m.ROWID > ? ORDER BY
m.ROWID ASC` over a table already ordered by `ROWID`. -/
def queryNew (last : Nat) (db : List MsgRow) : List MsgRow :=
  db.filter (fun m => decide (m.service = "iMessage") && decide (last < m.rowid))

/-- One run of `pollMessages` against the database snapshot `db`. -/
def pollCycle (reg : List (String × RegGroup)) (last : Nat) (st : Store)
    (db : List MsgRow) : Nat × Store × List MsgRow :=
  processLoop reg last st (queryNew last db)

/-- A sequence of polling cycles against successive database snapshots. -/
def runPolls (reg : List (String × RegGroup)) :
    Nat → Store → List (List MsgRow) → Nat × Store × List MsgRow
  | last, st, [] => (last, st, [])
  | last, st, db :: dbs =>
    let c := pollCycle reg last st db
    let r := runPolls reg c.1 c.2.1 dbs
    (r.1, r.2.1, c.2.2 ++ r.2.2)

/-- `connect`'s initialisation: `SELECT MAX(ROWID) FROM message`, with
`|| 0` for an empty table. -/
def initLast (db : List MsgRow) : Nat :=
  db.foldl (fun a m => max a m.rowid) 0

/-- The database rows are strictly ordered by `ROWID` (integer primary
key). -/
abbrev RowSorted (db : List MsgRow) : Prop :=
  db.Pairwise (fun a b => a.rowid < b.rowid)

/-! ### Contact approval (`src/unnamed/part_002`) -/

structure OpResult where
  success : Bool
  error : Option String
  deriving DecidableEq, Repr

def MAIN_GROUP_FOLDER : String := "main"

/-- `pending.contact_info.replace(/[^a-zA-Z0-9-]/g, '-').toLowerCase()`. -/
def sanitizeContact (s : String) : String :=
  String.mk (s.toList.map (fun c =>
    if c.isAlpha || c.isDigit || c = '-' then c.toLower else '-'))

/-- `approveIMessageContact` (`src/unnamed/part_002`).  `now` stands for
`Date.now()`; `assistantName` for `ASSISTANT_NAME`; `collabFolder` for
`IMESSAGE_COLLABORATION_FOLDER`. -/
def approveIMessageContact (st : Store) (chatGuid : String) (useMainAgent : Bool)
    (now : Nat) (assistantName : String) : Store × OpResult :=
  match getPendingApproval st chatGuid with
  | none => (st, ⟨false, some "No pending approval found"⟩)
  | some pending =>
    if (getRegisteredGroup st chatGuid).isSome then
      (st, ⟨false, some "Contact is already registered"⟩)
    else
      let folderName :=
        if useMainAgent then MAIN_GROUP_FOLDER
        else "imessage-" ++ sanitizeContact pending.contact_info ++ "-" ++ toString now
      let group : RegGroup :=
        ⟨pending.contact_info, folderName, "@" ++ assistantName, toString now,
         some false, !useMainAgent⟩
      let st1 := registerGroup st chatGuid group
      let st2 := removePendingApproval st1 chatGuid
      (st2, ⟨true, none⟩)

/-- `denyIMessageContact` (`src/unnamed/part_002`). -/
def denyIMessageContact (st : Store) (chatGuid : String) (reason : Option String) :
    Store × OpResult :=
  match getPendingApproval st chatGuid with
  | none => (st, ⟨false, some "No pending approval found"⟩)
  | some pending =>
    let st1 := addBlockedContact st chatGuid pending.contact_info
      (jsOrD reason "Denied by user")
    let st2 := removePendingApproval st1 chatGuid
    (st2, ⟨true, none⟩)

/-- `notifyPendingApproval` (`src/unnamed/part_002`): store a notification
message addressed to the main user's chat, when one exists. -/
def notifyPendingApproval (assistantName : String) (now : Nat) (st : Store)
    (chatGuid senderName firstMessage : String) : Store :=
  match st.registered.find? (fun e => e.2.folder = MAIN_GROUP_FOLDER) with
  | none => st
  | some mainChat =>
    let previewText :=
      if 50 < firstMessage.toList.length
      then strTake 50 firstMessage ++ "..." else firstMessage
    let notificationText :=
      "📬 New iMessage contact pending approval:\n\n" ++
      "Contact: " ++ senderName ++ "\n" ++
      "Chat ID: " ++ chatGuid ++ "\n" ++
      "First message: \"" ++ previewText ++ "\"\n\n" ++
      "To approve (isolated agent):\n" ++
      "\x7b\"type\": \"approve_imessage_contact\", \"chatJid\": \"" ++ chatGuid ++ "\"\x7d\n\n" ++
      "To approve (main agent):\n" ++
      "\x7b\"type\": \"approve_imessage_contact\", \"chatJid\": \"" ++ chatGuid ++
        "\", \"useMainAgent\": true\x7d\n\n" ++
      "To deny:\n" ++
      "\x7b\"type\": \"deny_imessage_contact\", \"chatJid\": \"" ++ chatGuid ++
        "\", \"reason\": \"Spam\"\x7d"
    storeMessageDirect st
      ⟨"approval-notification-" ++ toString now, mainChat.1, "System",
       "NanoClaw System", "@" ++ assistantName ++ " " ++ notificationText,
       toString now, false⟩

/-- `handleIncomingMessage` (`src/unnamed/part_002`).  Returns the new store
and the new `lastProcessedRowId`. -/
def handleIncomingMessage (assistantName : String) (now : Nat) (st : Store)
    (last : Nat) (msg : MsgRow) : Store × Nat :=
  let last' := max last msg.rowid
  if msg.is_from_me then (st, last')
  else if !(jsTruthyS msg.sender && jsTruthyS msg.chat_identifier) then (st, last')
  else
    let sender := msg.sender.getD ""
    let chatGuid := normalizeChatGuid sender
    let messageText := jsOrD msg.text ""
    let ts := toString msg.date
    let st1 := storeChatMetadata st chatGuid ts sender
    if isContactBlocked st1 chatGuid then (st1, last')
    else
      match getRegisteredGroup st1 chatGuid with
      | none =>
        match getPendingApproval st1 chatGuid with
        | none =>
          let st2 := addPendingApproval st1 chatGuid sender (strTake 200 messageText)
          (notifyPendingApproval assistantName now st2 chatGuid sender
            (strTake 200 messageText), last')
        | some _ => (st1, last')
      | some group =>
        if jsTrim messageText.toList = [] then (st1, last')
        else
          let content :=
            if triggerTest assistantName messageText then messageText
            else if eqSubList (assistantName.toList.map Char.toLower)
                      (messageText.toList.map Char.toLower)
                    && decide (group.requiresTrigger ≠ some false) then
              "@" ++ assistantName ++ " " ++ messageText
            else messageText
          (storeMessageDirect st1
            ⟨msg.guid, chatGuid, sender, sender, content, ts, false⟩, last')

/-! ### IPC task dispatch (`apply-imessage-integration.cjs`) -/

inductive IpcTask where
  | approveContact (chatJid : Option String)
  | denyContact (chatJid : Option String) (reason : Option String)
  | listPending
  | listBlocked
  | other (t : String)
  deriving DecidableEq, Repr

inductive LogLevel where
  | warn | info | error
  deriving DecidableEq, Repr

structure LogEvent where
  level : LogLevel
  msg : String
  deriving DecidableEq, Repr

/-- The IPC task switch added to `index.ts` by
`apply-imessage-integration.cjs`.  `isMain` is `index.ts`'s check that the
task file's source group is the main group (the enclosing code is not part
of the source tree, so the authorization signal is modelled as this
boolean). -/
def dispatchIpc (isMain : Bool) (task : IpcTask) (st : Store) (now : Nat)
    (assistantName : String) : Store × List LogEvent :=
  match task with
  | .approveContact chatJid =>
    if !isMain then
      (st, [⟨.warn, "Unauthorized approve_imessage_contact attempt blocked"⟩])
    else
      match chatJid with
      | some c =>
        let r := approveIMessageContact st c false now assistantName
        (r.1, [if r.2.success then ⟨.info, "iMessage contact approved"⟩
               else ⟨.error, "Failed to approve iMessage contact"⟩])
      | none =>
        (st, [⟨.warn, "Invalid approve_imessage_contact request - missing chatJid"⟩])
  | .denyContact chatJid reason =>
    if !isMain then
      (st, [⟨.warn, "Unauthorized deny_imessage_contact attempt blocked"⟩])
    else
      match chatJid with
      | some c =>
        let r := denyIMessageContact st c reason
        (r.1, [if r.2.success then ⟨.info, "iMessage contact denied and blocked"⟩
               else ⟨.error, "Failed to deny iMessage contact"⟩])
      | none =>
        (st, [⟨.warn, "Invalid deny_imessage_contact request - missing chatJid"⟩])
  | .listPending =>
    if !isMain then
      (st, [⟨.warn, "Unauthorized list_pending_imessage_approvals attempt blocked"⟩])
    else (st, [⟨.info, "Listed pending iMessage approvals"⟩])
  | .listBlocked =>
    if !isMain then
      (st, [⟨.warn, "Unauthorized list_blocked_imessage_contacts attempt blocked"⟩])
    else (st, [⟨.info, "Listed blocked iMessage contacts"⟩])
  | .other _ => (st, [⟨.warn, "Unknown IPC task type"⟩])

/-! ### Heartbeat initialisation (`src/heartbeat-scheduler.ts`) -/

structure ActiveHours where
  startHour : Nat
  endHour : Nat
  timezone : String
  deriving DecidableEq, Repr

structure HeartbeatConfig where
  enabled : Bool
  every : String
  activeHours : Option ActiveHours
  suppressOk : Bool
  maxSuppressedChars : Nat
  prompt : Option String
  deriving DecidableEq, Repr

inductive SchedKind where
  | cron | interval
  deriving DecidableEq, Repr

structure TaskRec where
  id : String
  group_folder : String
  chat_jid : String
  prompt : String
  schedule_type : SchedKind
  schedule_value : String
  context_mode : String
  model : String
  next_run : Option String
  status : String
  created_at : String
  deriving DecidableEq, Repr

def digitsToNat (ds : List Char) : Nat :=
  ds.foldl (fun acc c => acc * 10 + (c.toNat - '0'.toNat)) 0

/-- `parseInterval` (`src/heartbeat-scheduler.ts`): regex
`^(\d+)([mh])$`; `none` models the thrown error. -/
def parseIntervalMs (s : String) : Option Nat :=
  let cs := s.toList
  match cs.getLast? with
  | none => none
  | some u =>
    let ds := cs.dropLast
    if ds.isEmpty then none
    else if !(ds.all Char.isDigit) then none
    else
      let v := digitsToNat ds
      if u = 'm' then some (v * 60 * 1000)
      else if u = 'h' then some (v * 60 * 60 * 1000)
      else none

/-- `generateHeartbeatCron`: `none` models the thrown fallback error.
(For `minutes = 0`, JS computes `60 % 0 = NaN ≠ 0` and throws; in Lean
`60 % 0 = 60 ≠ 0`, so the `none` branch agrees.) -/
def genHeartbeatCron (intervalMs : Nat) : Option String :=
  let minutes := intervalMs / (60 * 1000)
  if minutes = 60 then some "0 * * * *"
  else if minutes < 60 ∧ 60 % minutes = 0 then
    some ("*/" ++ toString minutes ++ " * * * *")
  else none

def defaultHeartbeatPrompt : String :=
  "Read HEARTBEAT.md and follow the instructions. If nothing needs attention, respond with HEARTBEAT_OK."

/-- `wrapPromptWithActiveHoursCheck`. -/
def wrapPromptAH (cfg : HeartbeatConfig) (basePrompt : String) : String :=
  match cfg.activeHours with
  | none => basePrompt
  | some ah =>
    "Check the current time in " ++ ah.timezone ++ " timezone. If it's between " ++
    toString ah.startHour ++ ":00 and " ++ toString ah.endHour ++ ":00 (" ++
    toString ah.startHour ++ " AM to " ++
    (if ah.endHour = 12 then "12 PM"
     else if 12 < ah.endHour then toString (ah.endHour - 12) ++ " PM"
     else toString ah.endHour ++ " AM") ++
    "), proceed with the heartbeat check. Otherwise, respond with just \"HEARTBEAT_OK\" (outside active hours).\n\nIf within active hours:\n" ++
    basePrompt

/-- Modelled from the spec: `getTaskById` looks a task up in the scheduler
persistence by id. -/
def getTaskById (tasks : List TaskRec) (id : String) : Option TaskRec :=
  tasks.find? (fun t => t.id = id)

/-- Number of persisted tasks with the given id. -/
def countTasks (tasks : List TaskRec) (id : String) : Nat :=
  (tasks.filter (fun t => t.id = id)).length

/-- `initializeHeartbeat` (`src/heartbeat-scheduler.ts`).  The filesystem
read of `heartbeat-config.json` is abstracted to the already-parsed
`cfgOpt`; `nowIso`/`nowMs` stand for the current time; `cronNext expr tz`
and `intervalIso t` stand for the `next_run` computations of
`cron-parser` and `new Date(...).toISOString()`. -/
def heartbeatInit (cfgOpt : Option HeartbeatConfig) (groupFolder chatJid : String)
    (tasks : List TaskRec) (nowIso : String) (nowMs : Nat)
    (cronNext : String → String → String) (intervalIso : Nat → String) :
    List TaskRec × Bool :=
  match cfgOpt with
  | none => (tasks, false)
  | some cfg =>
    if !cfg.enabled then (tasks, false)
    else
      match parseIntervalMs cfg.every with
      | none => (tasks, false)
      | some intervalMs =>
        let basePrompt := jsOrD cfg.prompt defaultHeartbeatPrompt
        let prompt := wrapPromptAH cfg basePrompt
        let sched : SchedKind × String :=
          match genHeartbeatCron intervalMs with
          | some c => (.cron, c)
          | none => (.interval, toString intervalMs)
        let tz := jsOrD (cfg.activeHours.map (·.timezone)) "America/Los_Angeles"
        let nextRun : Option String :=
          match sched.1 with
          | .cron => some (cronNext sched.2 tz)
          | .interval => some (intervalIso (nowMs + intervalMs))
        let taskId := "heartbeat-" ++ groupFolder
        if (getTaskById tasks taskId).isSome then (tasks, true)
        else
          (tasks ++ [⟨taskId, groupFolder, chatJid, prompt, sched.1, sched.2,
            "group", "haiku", nextRun, "active", nowIso⟩], true)

/-- The empty store. -/
def emptyStore : Store := ⟨[], [], [], [], []⟩

/-! ### Concrete fixtures used by the witness theorems -/

def groupW : RegGroup := ⟨"x", "folder-x", "@Shelby", "t0", some false, false⟩

/-- A store in which `imsg:x` is both pending and already registered. -/
def regStoreW : Store :=
  ⟨[("imsg:x", groupW)], [⟨"imsg:x", "x", "hi"⟩], [], [], []⟩

/-- A store with one pending approval for `imsg:x`. -/
def pendStoreW : Store := ⟨[], [⟨"imsg:x", "x", "hi"⟩], [], [], []⟩

/-- A store in which `imsg:p` is blocked. -/
def blockedStoreW : Store := ⟨[], [], [⟨"imsg:p", "p", "r"⟩], [], []⟩

/-- An inbound message row from the blocked contact `imsg:p`. -/
def msgW : MsgRow := ⟨7, "g7", some "hello", some "p", some "p", 0, false, "iMessage"⟩

def cfgW : HeartbeatConfig := ⟨true, "30m", none, true, 300, none⟩

def ahW : ActiveHours := ⟨8, 22, "UTC"⟩

def cnW : String → String → String := fun _ _ => "next-run"

def iiW : Nat → String := fun _ => "next-run"

/-- A persisted heartbeat task for group folder `g`. -/
def taskW : TaskRec :=
  ⟨"heartbeat-g", "g", "j", "p", .cron, "0 * * * *", "group", "haiku",
   some "next-run", "active", "t0"⟩

def rowW1 : MsgRow := ⟨1, "g1", some "a", some "p", some "p", 0, false, "iMessage"⟩

def rowW2 : MsgRow := ⟨2, "g2", some "b", some "p", some "p", 0, false, "iMessage"⟩

def dummyTaskW : TaskRec := ⟨"", "", "", "", .interval, "", "", "", none, "", ""⟩

/-- The task created for `cfgW` with active hours `ahW`. -/
def taskAW : TaskRec :=
  (heartbeatInit (some { cfgW with activeHours := some ahW }) "g" "j" [] "t0" 0
    cnW iiW).1.headD dummyTaskW

/-- The task created for `cfgW` without active hours. -/
def taskBW : TaskRec :=
  (heartbeatInit (some { cfgW with activeHours := none }) "g" "j" [] "t0" 0
    cnW iiW).1.headD dummyTaskW

/-!
## Theorems
-/

/-! ### Case-insensitive matching lemmas -/

theorem ciEq_length : ∀ p s : List Char, ciEq p s = true → p.length = s.length := by
  intro p
  induction p with
  | nil => intro s h; cases s with
    | nil => rfl
    | cons b bs => simp [ciEq] at h
  | cons a as ih => intro s h; cases s with
    | nil => simp [ciEq] at h
    | cons b bs =>
      simp only [ciEq, Bool.and_eq_true] at h
      simp [ih bs h.2]

theorem ciPref_of_ciEq_append :
    ∀ (p s t : List Char), ciEq p s = true → ciPref p (s ++ t) = true := by
  intro p
  induction p with
  | nil => intro s t _; rfl
  | cons a as ih =>
    intro s t h
    cases s with
    | nil => simp [ciEq] at h
    | cons b bs =>
      simp only [ciEq, Bool.and_eq_true] at h
      simp only [List.cons_append, ciPref, Bool.and_eq_true]
      exact ⟨h.1, ih bs t h.2⟩

theorem ciPref_iff :
    ∀ (p l : List Char),
      ciPref p l = true ↔ ∃ s t, l = s ++ t ∧ ciEq p s = true := by
  intro p
  induction p with
  | nil =>
    intro l
    simp only [ciPref, true_iff]
    exact ⟨[], l, rfl, rfl⟩
  | cons a as ih =>
    intro l
    cases l with
    | nil =>
      simp only [ciPref, Bool.false_eq_true, false_iff]
      rintro ⟨s, t, h, hci⟩
      have hs : s = [] := by
        cases s with
        | nil => rfl
        | cons x xs => simp at h
      subst hs
      simp [ciEq] at hci
    | cons b bs =>
      simp only [ciPref, Bool.and_eq_true]
      constructor
      · rintro ⟨h1, h2⟩
        obtain ⟨s, t, rfl, hci⟩ := (ih bs).mp h2
        exact ⟨b :: s, t, rfl, by simp [ciEq, h1, hci]⟩
      · rintro ⟨s, t, h, hci⟩
        cases s with
        | nil => simp [ciEq] at hci
        | cons x xs =>
          simp only [List.cons_append, List.cons.injEq] at h
          obtain ⟨rfl, rfl⟩ := h
          simp only [ciEq, Bool.and_eq_true] at hci
          exact ⟨hci.1, (ih _).mpr ⟨xs, t, rfl, hci.2⟩⟩

theorem lastOr_cons (prev : Option Char) (c : Char) (pre : List Char) :
    lastOr prev (c :: pre) = lastOr (some c) pre := by
  cases pre with
  | nil => simp [lastOr, List.getLast?_singleton]
  | cons d pre' => simp [lastOr, List.getLast?_cons_cons]

theorem hasHB_iff :
    ∀ (l : List Char) (prev : Option Char),
      hasHB prev l = true ↔ SentinelOccursFrom prev l := by
  intro l
  induction l with
  | nil =>
    intro prev
    simp only [hasHB, Bool.false_eq_true, false_iff, SentinelOccursFrom]
    rintro ⟨pre, s, post, h, hci, -, -⟩
    have hs : s = [] := (List.append_eq_nil.mp (List.append_eq_nil.mp h.symm).1).2
    subst hs
    exact absurd hci (by decide)
  | cons c cs ih =>
    intro prev
    simp only [hasHB, Bool.or_eq_true, Bool.and_eq_true, ih (some c)]
    constructor
    · rintro (⟨⟨h1, h2⟩, h3⟩ | hR)
      · obtain ⟨s, t, heq, hci⟩ := (ciPref_iff sentinel (c :: cs)).mp h2
        refine ⟨[], s, t, by simpa using heq, hci, ?_, ?_⟩
        · simpa [lastOr] using h1
        · have hlen : sentinel.length = s.length := ciEq_length _ _ hci
          rw [heq, hlen, List.drop_left] at h3
          exact h3
      · obtain ⟨pre, s, post, heq, hci, hb, ha⟩ := hR
        refine ⟨c :: pre, s, post, by simp [heq], hci, ?_, ha⟩
        rwa [lastOr_cons]
    · rintro ⟨pre, s, post, heq, hci, hb, ha⟩
      cases pre with
      | nil =>
        left
        simp only [List.nil_append] at heq
        refine ⟨⟨?_, ?_⟩, ?_⟩
        · simpa [lastOr] using hb
        · rw [heq]; exact ciPref_of_ciEq_append _ _ _ hci
        · rw [heq]
          have hlen : sentinel.length = s.length := ciEq_length _ _ hci
          rw [hlen, List.drop_left]
          exact ha
      | cons p0 pre' =>
        right
        have hc : c = p0 ∧ cs = pre' ++ s ++ post := by simpa using heq
        refine ⟨pre', s, post, hc.2, hci, ?_, ha⟩
        rw [lastOr_cons] at hb
        rw [hc.1]
        exact hb

theorem sentinelOccurs_iff (l : List Char) :
    SentinelOccurs l ↔ hasHB none l = true :=
  (hasHB_iff l none).symm

/-- C1: For every response string and every configured character threshold,
`isHeartbeatOk` returns true iff the response (the trimmed content the
classifier works on) contains the sentinel token `HEARTBEAT_OK` (as a
case-insensitive, word-delimited occurrence) and the remaining content after
stripping the sentinel and punctuation is at or below the threshold in
characters; in particular `"HEARTBEAT_OK"` with threshold 300 is classified
suppressible, and a response not containing the sentinel is never
suppressed. -/
theorem heartbeat_suppression_c1 :
    (∀ (msg : String) (t : Nat),
      isHeartbeatOk msg t = true ↔
        (SentinelOccurs (jsTrim msg.toList)
          ∧ (heartbeatRemaining (jsTrim msg.toList)).length ≤ t))
    ∧ isHeartbeatOk "HEARTBEAT_OK" 300 = true
    ∧ (∀ (msg : String) (t : Nat), ¬ SentinelOccurs (jsTrim msg.toList) →
        isHeartbeatOk msg t = false) := by
  refine ⟨?_, by decide, ?_⟩
  · intro msg t
    unfold isHeartbeatOk
    by_cases h : hasHB none (jsTrim msg.toList) = true
    · rw [if_pos h]
      have ho : SentinelOccurs (jsTrim msg.toList) := (hasHB_iff _ none).mp h
      constructor
      · intro hd
        exact ⟨ho, of_decide_eq_true hd⟩
      · intro hand
        exact decide_eq_true hand.2
    · rw [if_neg h]
      have hno : ¬ SentinelOccurs (jsTrim msg.toList) :=
        fun ho => h ((hasHB_iff _ none).mpr ho)
      exact iff_of_false (by simp) (fun hc => hno hc.1)
  · intro msg t hno
    have h : ¬ hasHB none (jsTrim msg.toList) = true :=
      fun hh => hno ((hasHB_iff _ none).mp hh)
    unfold isHeartbeatOk
    rw [if_neg h]

/-- Witness for C1 at a concrete input without the sentinel. -/
theorem heartbeat_suppression_c1_witness :
    isHeartbeatOk "Nothing to report" 300 = false :=
  heartbeat_suppression_c1.2.2 "Nothing to report" 300 (fun ho => by
    have hh := (hasHB_iff (jsTrim "Nothing to report".toList) none).mpr ho
    exact absurd hh (by decide))

/-! ### IPC authorization (C2) -/

/-- C2: An `approve_imessage_contact` or `deny_imessage_contact` IPC task
whose source group is not the main group is rejected with a logged warning
and has no effect: the store (registered groups, blocked contacts, pending
approvals) is returned unchanged. -/
theorem ipc_nonmain_rejected_c2 :
    ∀ (cj : Option String) (r : Option String) (st : Store) (now : Nat)
      (an : String),
      dispatchIpc false (.approveContact cj) st now an =
        (st, [⟨.warn, "Unauthorized approve_imessage_contact attempt blocked"⟩])
      ∧ dispatchIpc false (.denyContact cj r) st now an =
        (st, [⟨.warn, "Unauthorized deny_imessage_contact attempt blocked"⟩]) := by
  intro cj r st now an
  exact ⟨rfl, rfl⟩

/-! ### Store lemmas -/

theorem isContactBlocked_storeChatMetadata (st : Store) (a b c j : String) :
    isContactBlocked (storeChatMetadata st a b c) j = isContactBlocked st j := rfl

theorem isContactBlocked_addBlockedContact (st : Store) (jid info reason : String) :
    isContactBlocked (addBlockedContact st jid info reason) jid = true := by
  simp [isContactBlocked, addBlockedContact]

theorem getPendingApproval_removePendingApproval (st : Store) (jid : String) :
    getPendingApproval (removePendingApproval st jid) jid = none := by
  simp only [getPendingApproval, removePendingApproval]
  rw [List.find?_eq_none]
  intro e he
  have := (List.mem_filter.mp he).2
  simpa using this

/-! ### Contact approval failure cases (C4) -/

/-- C4: `approveIMessageContact` and `denyIMessageContact` fail with
`{success: false, error}` whenever no pending approval exists, and
`approveIMessageContact` also fails when the contact is already registered;
in every such case the store is returned unchanged (no group registered,
no contact blocked, pending approvals untouched). -/
theorem approval_fail_closed_c4 :
    (∀ (st : Store) (c : String) (u : Bool) (now : Nat) (an : String),
      getPendingApproval st c = none →
      approveIMessageContact st c u now an =
        (st, ⟨false, some "No pending approval found"⟩))
    ∧ (∀ (st : Store) (c : String) (u : Bool) (now : Nat) (an : String),
      (getPendingApproval st c).isSome = true →
      (getRegisteredGroup st c).isSome = true →
      approveIMessageContact st c u now an =
        (st, ⟨false, some "Contact is already registered"⟩))
    ∧ (∀ (st : Store) (c : String) (r : Option String),
      getPendingApproval st c = none →
      denyIMessageContact st c r =
        (st, ⟨false, some "No pending approval found"⟩)) := by
  refine ⟨?_, ?_, ?_⟩
  · intro st c u now an h
    unfold approveIMessageContact
    rw [h]
  · intro st c u now an hp hr
    obtain ⟨p, hp'⟩ := Option.isSome_iff_exists.mp hp
    unfold approveIMessageContact
    rw [hp']
    simp [hr]
  · intro st c r h
    unfold denyIMessageContact
    rw [h]

/-- Witness for C4 at concrete stores. -/
theorem approval_fail_closed_c4_witness :
    approveIMessageContact emptyStore "imsg:x" false 0 "Shelby" =
      (emptyStore, ⟨false, some "No pending approval found"⟩)
    ∧ approveIMessageContact regStoreW "imsg:x" false 0 "Shelby" =
      (regStoreW, ⟨false, some "Contact is already registered"⟩)
    ∧ denyIMessageContact emptyStore "imsg:x" none =
      (emptyStore, ⟨false, some "No pending approval found"⟩) :=
  ⟨approval_fail_closed_c4.1 emptyStore "imsg:x" false 0 "Shelby" (by decide),
   approval_fail_closed_c4.2.1 regStoreW "imsg:x" false 0 "Shelby" (by decide) (by decide),
   approval_fail_closed_c4.2.2 emptyStore "imsg:x" none (by decide)⟩

/-! ### Deny blocks the contact and blocked chats are dropped (C5) -/

/-- C5: After a successful `denyIMessageContact`, the chat is in the
blocked-contacts list and its pending approval is removed; and every inbound
message from a blocked chat is dropped before processing by both message
paths: no message is stored, no `onMessage` callback fires, and no new
pending approval is created. -/
theorem deny_blocks_and_drops_c5 :
    (∀ (st : Store) (c : String) (r : Option String),
      (denyIMessageContact st c r).2.success = true →
      isContactBlocked (denyIMessageContact st c r).1 c = true
      ∧ getPendingApproval (denyIMessageContact st c r).1 c = none)
    ∧ (∀ (reg : List (String × RegGroup)) (st : Store) (msg : MsgRow),
      isContactBlocked st (chanChatJid msg) = true →
      (processMessage reg st msg).2 = none
      ∧ (processMessage reg st msg).1.messages = st.messages
      ∧ (processMessage reg st msg).1.pending = st.pending)
    ∧ (∀ (an : String) (now : Nat) (st : Store) (last : Nat) (msg : MsgRow),
      isContactBlocked st (normalizeChatGuid (msg.sender.getD "")) = true →
      (handleIncomingMessage an now st last msg).1.messages = st.messages
      ∧ (handleIncomingMessage an now st last msg).1.pending = st.pending) := by
  refine ⟨?_, ?_, ?_⟩
  · intro st c r hs
    cases hp : getPendingApproval st c with
    | none =>
      exfalso
      unfold denyIMessageContact at hs
      rw [hp] at hs
      simp at hs
    | some pending =>
      unfold denyIMessageContact
      rw [hp]
      constructor
      · simpa [removePendingApproval, isContactBlocked] using
          isContactBlocked_addBlockedContact st c pending.contact_info
            (jsOrD r "Denied by user")
      · exact getPendingApproval_removePendingApproval _ c
  · intro reg st msg hb
    simp only [processMessage]
    by_cases h1 : msg.is_from_me = true
    · rw [if_pos h1]; exact ⟨rfl, rfl, rfl⟩
    · rw [if_neg h1]
      by_cases h2 : msg.service ≠ "iMessage"
      · rw [if_pos h2]; exact ⟨rfl, rfl, rfl⟩
      · rw [if_neg h2]
        have hb' : isContactBlocked
            (storeChatMetadata st
              (normalizeChatGuid (jsOrD msg.chat_identifier (jsOrD msg.sender "unknown")))
              (toString msg.date) (jsOrD msg.chat_identifier (jsOrD msg.sender "unknown")))
            (normalizeChatGuid (jsOrD msg.chat_identifier (jsOrD msg.sender "unknown"))) = true := hb
        rw [if_pos hb']
        exact ⟨rfl, rfl, rfl⟩
  · intro an now st last msg hb
    simp only [handleIncomingMessage]
    by_cases h1 : msg.is_from_me = true
    · rw [if_pos h1]; exact ⟨rfl, rfl⟩
    · rw [if_neg h1]
      by_cases h2 : (!(jsTruthyS msg.sender && jsTruthyS msg.chat_identifier)) = true
      · rw [if_pos h2]; exact ⟨rfl, rfl⟩
      · rw [if_neg h2]
        have hb' : isContactBlocked
            (storeChatMetadata st (normalizeChatGuid (msg.sender.getD ""))
              (toString msg.date) (msg.sender.getD ""))
            (normalizeChatGuid (msg.sender.getD "")) = true := hb
        rw [if_pos hb']
        exact ⟨rfl, rfl⟩

/-- Witness for C5 at concrete stores and a concrete blocked message. -/
theorem deny_blocks_and_drops_c5_witness :
    (isContactBlocked (denyIMessageContact pendStoreW "imsg:x" none).1 "imsg:x" = true
      ∧ getPendingApproval (denyIMessageContact pendStoreW "imsg:x" none).1 "imsg:x" = none)
    ∧ ((processMessage [] blockedStoreW msgW).2 = none
      ∧ (processMessage [] blockedStoreW msgW).1.messages = blockedStoreW.messages
      ∧ (processMessage [] blockedStoreW msgW).1.pending = blockedStoreW.pending)
    ∧ ((handleIncomingMessage "Shelby" 0 blockedStoreW 0 msgW).1.messages = blockedStoreW.messages
      ∧ (handleIncomingMessage "Shelby" 0 blockedStoreW 0 msgW).1.pending = blockedStoreW.pending) :=
  ⟨deny_blocks_and_drops_c5.1 pendStoreW "imsg:x" none (by decide),
   deny_blocks_and_drops_c5.2.1 [] blockedStoreW msgW (by decide),
   deny_blocks_and_drops_c5.2.2 "Shelby" 0 blockedStoreW 0 msgW (by decide)⟩

/-! ### Watchers never emit for temporary files (C7) -/

/-- C7: For every observed line, none of the three watcher line handlers
(`FileWatcher.start`, `CollaborationWatcher.startFswatch`,
`CollaborationWatcher.startInotifywait`) ever emits a `change` event for a
file whose basename starts with `.`, ends with `~`, or ends with `.tmp`;
each handler emits nothing exactly when the parsed path is empty or its
basename is such a temporary name. -/
theorem watchers_skip_temp_c7 :
    ∀ line fp : String,
      (fileWatcherLine line = none ↔
        ((line.splitOn "|").headD "" = ""
          ∨ isTempName (fwFilename ((line.splitOn "|").headD "")) = true))
      ∧ (collabFswatchLine fp = none ↔
        (fp = "" ∨ isTempName (posixBasename fp) = true))
      ∧ (collabInotifyLine line = none ↔
        ((line.splitOn "|").headD "" = ""
          ∨ isTempName (posixBasename ((line.splitOn "|").headD "")) = true)) := by
  intro line fp
  refine ⟨?_, ?_, ?_⟩
  · simp only [fileWatcherLine]
    split_ifs with h1 h2
    · simp_all [List.headD_eq_head?_getD]
    · simp_all [List.headD_eq_head?_getD]
    · simp_all [List.headD_eq_head?_getD]
  · simp only [collabFswatchLine]
    split_ifs with h1 h2
    · simp [h1]
    · simp [h1, h2]
    · simp [h1, h2]
  · simp only [collabInotifyLine]
    split_ifs with h1 h2
    · simp_all [List.headD_eq_head?_getD]
    · simp_all [List.headD_eq_head?_getD]
    · simp_all [List.headD_eq_head?_getD]

/-! ### Active hours are content-level only (C6) -/

/-- C6: `initializeHeartbeat` computes the task's schedule kind and schedule
value solely from the interval — they are identical whether or not
`activeHours` is set — and active-hours filtering shows up only in the
prompt, which is the base prompt wrapped by
`wrapPromptWithActiveHoursCheck`; moreover any cron expression it produces
restricts only the minute field (`0 * * * *` or `*/m * * * *`), so the task
still fires outside active hours. -/
theorem heartbeat_active_hours_c6 :
    ∀ (cfg : HeartbeatConfig) (ah : ActiveHours) (gf jid ts : String) (now : Nat)
      (cn : String → String → String) (ii : Nat → String),
      (heartbeatInit (some { cfg with activeHours := some ah }) gf jid [] ts now cn ii).2
        = (heartbeatInit (some { cfg with activeHours := none }) gf jid [] ts now cn ii).2
      ∧ ∀ t1 ∈ (heartbeatInit (some { cfg with activeHours := some ah }) gf jid [] ts now cn ii).1,
        ∀ t2 ∈ (heartbeatInit (some { cfg with activeHours := none }) gf jid [] ts now cn ii).1,
          t1.schedule_type = t2.schedule_type
          ∧ t1.schedule_value = t2.schedule_value
          ∧ t1.prompt = wrapPromptAH { cfg with activeHours := some ah } t2.prompt
          ∧ (t1.schedule_type = .cron →
              t1.schedule_value = "0 * * * *"
              ∨ ∃ m, m < 60 ∧ 60 % m = 0
                  ∧ t1.schedule_value = "*/" ++ toString m ++ " * * * *") := by
  intro cfg ah gf jid ts now cn ii
  simp only [heartbeatInit]
  by_cases he : cfg.enabled
  · cases hp : parseIntervalMs cfg.every with
    | none => simp [he, hp]
    | some ms =>
      cases hg : genHeartbeatCron ms with
      | some c =>
        refine ⟨by simp [he, hp, hg, getTaskById], ?_⟩
        intro t1 ht1 t2 ht2
        simp [he, hp, hg, getTaskById] at ht1 ht2
        subst ht1
        subst ht2
        refine ⟨rfl, rfl, rfl, fun _ => ?_⟩
        simp only [genHeartbeatCron] at hg
        split_ifs at hg with hm1 hm2
        · exact Or.inl (Option.some.inj hg).symm
        · exact Or.inr ⟨ms / (60 * 1000), hm2.1, hm2.2, (Option.some.inj hg).symm⟩
      | none =>
        refine ⟨by simp [he, hp, hg, getTaskById], ?_⟩
        intro t1 ht1 t2 ht2
        simp [he, hp, hg, getTaskById] at ht1 ht2
        subst ht1
        subst ht2
        refine ⟨rfl, rfl, rfl, fun hcron => ?_⟩
        simp at hcron
  · simp [he]

/-! ### Heartbeat initialisation is idempotent per group (C10) -/

theorem getTaskById_none_count (tasks : List TaskRec) (id : String)
    (h : getTaskById tasks id = none) : countTasks tasks id = 0 := by
  simp only [getTaskById] at h
  rw [List.find?_eq_none] at h
  simp only [countTasks, List.length_eq_zero, List.filter_eq_nil_iff]
  intro t ht
  simpa using h t ht

/-- C10: `initializeHeartbeat` is idempotent per group: when a task with id
`heartbeat-<groupFolder>` already exists (and the configuration is enabled
and parses), a repeated call returns `true` without touching the task
table; and a single call never pushes the number of `heartbeat-<groupFolder>`
tasks above one. -/
theorem heartbeat_idempotent_c10 :
    (∀ (cfg : HeartbeatConfig) (gf jid ts : String) (tasks : List TaskRec)
        (now : Nat) (cn : String → String → String) (ii : Nat → String),
      cfg.enabled = true →
      (parseIntervalMs cfg.every).isSome = true →
      (getTaskById tasks ("heartbeat-" ++ gf)).isSome = true →
      heartbeatInit (some cfg) gf jid tasks ts now cn ii = (tasks, true))
    ∧ (∀ (cfgOpt : Option HeartbeatConfig) (gf jid ts : String)
        (tasks : List TaskRec) (now : Nat) (cn : String → String → String)
        (ii : Nat → String),
      countTasks tasks ("heartbeat-" ++ gf) ≤ 1 →
      countTasks (heartbeatInit cfgOpt gf jid tasks ts now cn ii).1
        ("heartbeat-" ++ gf) ≤ 1) := by
  constructor
  · intro cfg gf jid ts tasks now cn ii he hp hex
    obtain ⟨ms, hp'⟩ := Option.isSome_iff_exists.mp hp
    simp [heartbeatInit, he, hp', hex]
  · intro cfgOpt gf jid ts tasks now cn ii hc
    cases cfgOpt with
    | none => simpa [heartbeatInit] using hc
    | some cfg =>
      simp only [heartbeatInit]
      by_cases he : cfg.enabled
      · cases hp : parseIntervalMs cfg.every with
        | none => simpa [he, hp] using hc
        | some ms =>
          by_cases hex : (getTaskById tasks ("heartbeat-" ++ gf)).isSome = true
          · simpa [he, hp, hex] using hc
          · have hnone : getTaskById tasks ("heartbeat-" ++ gf) = none :=
              Option.not_isSome_iff_eq_none.mp (by simpa using hex)
            have hfil : tasks.filter (fun t => decide (t.id = "heartbeat-" ++ gf)) = [] :=
              List.length_eq_zero.mp (getTaskById_none_count tasks _ hnone)
            have hex' : (getTaskById tasks ("heartbeat-" ++ gf)).isSome = false := by
              simp [hnone]
            simp [he, hp, hex', countTasks, List.filter_append, hfil]
      · simpa [he] using hc

set_option maxRecDepth 20000 in
/-- Witness for C6 at a concrete configuration. -/
theorem heartbeat_active_hours_c6_witness :
    (heartbeatInit (some { cfgW with activeHours := some ahW }) "g" "j" [] "t0" 0 cnW iiW).2
      = (heartbeatInit (some { cfgW with activeHours := none }) "g" "j" [] "t0" 0 cnW iiW).2
    ∧ (taskAW.schedule_type = taskBW.schedule_type
      ∧ taskAW.schedule_value = taskBW.schedule_value
      ∧ taskAW.prompt = wrapPromptAH { cfgW with activeHours := some ahW } taskBW.prompt
      ∧ (taskAW.schedule_type = .cron →
          taskAW.schedule_value = "0 * * * *"
          ∨ ∃ m, m < 60 ∧ 60 % m = 0
              ∧ taskAW.schedule_value = "*/" ++ toString m ++ " * * * *")) :=
  ⟨(heartbeat_active_hours_c6 cfgW ahW "g" "j" "t0" 0 cnW iiW).1,
   (heartbeat_active_hours_c6 cfgW ahW "g" "j" "t0" 0 cnW iiW).2 taskAW (by decide)
     taskBW (by decide)⟩

/-- Witness for C10 at a concrete pre-existing heartbeat task. -/
theorem heartbeat_idempotent_c10_witness :
    heartbeatInit (some cfgW) "g" "j" [taskW] "t0" 0 cnW iiW = ([taskW], true)
    ∧ countTasks (heartbeatInit (some cfgW) "g" "j" [taskW] "t0" 0 cnW iiW).1
        ("heartbeat-" ++ "g") ≤ 1 :=
  ⟨heartbeat_idempotent_c10.1 cfgW "g" "j" "t0" [taskW] 0 cnW iiW
      (by decide) (by decide) (by decide),
   heartbeat_idempotent_c10.2 (some cfgW) "g" "j" "t0" [taskW] 0 cnW iiW (by decide)⟩

/-! ### The mount allowlist lies outside the managed workspace (C8) -/

theorem mountAllowlistPath_not_under (root home : PathC) (x : String)
    (hx : x ∉ home) (h1 : x ≠ ".config") (h2 : x ≠ "nanoclaw")
    (h3 : x ≠ "mount-allowlist.json") :
    ¬ (root ++ [x]) <+: mountAllowlistPath home := by
  rintro ⟨t, ht⟩
  simp only [mountAllowlistPath] at ht
  have hget : ((root ++ [x]) ++ t).get? root.length = some x := by
    rw [List.get?_append (by simp)]
    rw [List.get?_append_right (le_refl root.length)]
    simp
  rw [ht] at hget
  by_cases hlen : root.length < home.length
  · rw [List.get?_append hlen] at hget
    exact hx (List.get?_mem hget)
  · rw [List.get?_append_right (Nat.le_of_not_lt hlen)] at hget
    have hmem := List.get?_mem hget
    simp only [List.mem_cons, List.not_mem_nil, or_false] at hmem
    rcases hmem with h | h | h
    · exact h1 h
    · exact h2 h
    · exact h3 h

/-- C8: `MOUNT_ALLOWLIST_PATH` resolves under `$HOME/.config/nanoclaw`, and
for every project root it is not a descendant of the `store`, `groups`, or
`data` directories derived from that root (for any home directory whose own
components do not use those reserved names). -/
theorem allowlist_outside_workspace_c8 :
    ∀ (home root : PathC),
      "store" ∉ home → "groups" ∉ home → "data" ∉ home →
      inSubtree (home ++ [".config", "nanoclaw"]) (mountAllowlistPath home)
      ∧ ¬ inSubtree (storeDir root) (mountAllowlistPath home)
      ∧ ¬ inSubtree (groupsDir root) (mountAllowlistPath home)
      ∧ ¬ inSubtree (dataDir root) (mountAllowlistPath home) := by
  intro home root hs hg hd
  refine ⟨⟨["mount-allowlist.json"], by simp [mountAllowlistPath]⟩, ?_, ?_, ?_⟩
  · exact mountAllowlistPath_not_under root home "store" hs
      (by decide) (by decide) (by decide)
  · exact mountAllowlistPath_not_under root home "groups" hg
      (by decide) (by decide) (by decide)
  · exact mountAllowlistPath_not_under root home "data" hd
      (by decide) (by decide) (by decide)

/-- Witness for C8 at a concrete home and project root. -/
theorem allowlist_outside_workspace_c8_witness :
    inSubtree (["Users", "user"] ++ [".config", "nanoclaw"])
      (mountAllowlistPath ["Users", "user"])
    ∧ ¬ inSubtree (storeDir ["srv", "proj"]) (mountAllowlistPath ["Users", "user"])
    ∧ ¬ inSubtree (groupsDir ["srv", "proj"]) (mountAllowlistPath ["Users", "user"])
    ∧ ¬ inSubtree (dataDir ["srv", "proj"]) (mountAllowlistPath ["Users", "user"]) :=
  allowlist_outside_workspace_c8 ["Users", "user"] ["srv", "proj"]
    (by decide) (by decide) (by decide)

/-! ### Poller ordering and no-replay invariants (C3) -/

theorem processLoop_inv (reg : List (String × RegGroup)) :
    ∀ (msgs : List MsgRow) (last : Nat) (st : Store),
      msgs.Pairwise (fun a b => a.rowid < b.rowid) →
      (∀ m ∈ msgs, last < m.rowid) →
      last ≤ (processLoop reg last st msgs).1
      ∧ (∀ d ∈ (processLoop reg last st msgs).2.2,
          last < d.rowid ∧ d.rowid ≤ (processLoop reg last st msgs).1)
      ∧ (processLoop reg last st msgs).2.2.Pairwise (fun a b => a.rowid < b.rowid) := by
  intro msgs
  induction msgs with
  | nil =>
    intro last st _ _
    simp [processLoop]
  | cons m ms ih =>
    intro last st hp hgt
    obtain ⟨hm, hms⟩ := List.pairwise_cons.mp hp
    have hlt : last < m.rowid := hgt m (by simp)
    have ihm := ih m.rowid (processMessage reg st m).1 hms hm
    simp only [processLoop]
    refine ⟨le_of_lt (lt_of_lt_of_le hlt ihm.1), ?_, ?_⟩
    · intro d hd
      rcases List.mem_append.mp hd with h1 | h2
      · have hdm : d = m := by
          cases hif : (processMessage reg st m).2.isSome <;> simp [hif] at h1
          exact h1
        subst hdm
        exact ⟨hlt, ihm.1⟩
      · obtain ⟨hgt', hle'⟩ := ihm.2.1 d h2
        exact ⟨lt_trans hlt hgt', hle'⟩
    · cases hif : (processMessage reg st m).2.isSome
      · simpa [hif] using ihm.2.2
      · simp only [hif, List.cons_append, List.nil_append, if_true]
        rw [List.pairwise_cons]
        exact ⟨fun b hb => (ihm.2.1 b hb).1, ihm.2.2⟩

theorem queryNew_gt (last : Nat) (db : List MsgRow) :
    ∀ m ∈ queryNew last db, last < m.rowid := by
  intro m hm
  have := (List.mem_filter.mp hm).2
  simp only [Bool.and_eq_true, decide_eq_true_eq] at this
  exact this.2

theorem queryNew_sorted (last : Nat) (db : List MsgRow) (h : RowSorted db) :
    (queryNew last db).Pairwise (fun a b => a.rowid < b.rowid) :=
  h.filter _

theorem pollCycle_spec (reg : List (String × RegGroup)) (last : Nat) (st : Store)
    (db : List MsgRow) (h : RowSorted db) :
    last ≤ (pollCycle reg last st db).1
    ∧ (∀ d ∈ (pollCycle reg last st db).2.2,
        last < d.rowid ∧ d.rowid ≤ (pollCycle reg last st db).1)
    ∧ (pollCycle reg last st db).2.2.Pairwise (fun a b => a.rowid < b.rowid) :=
  processLoop_inv reg (queryNew last db) last st
    (queryNew_sorted last db h) (queryNew_gt last db)

theorem runPolls_inv (reg : List (String × RegGroup)) :
    ∀ (dbs : List (List MsgRow)) (last : Nat) (st : Store),
      (∀ db ∈ dbs, RowSorted db) →
      last ≤ (runPolls reg last st dbs).1
      ∧ (∀ d ∈ (runPolls reg last st dbs).2.2,
          last < d.rowid ∧ d.rowid ≤ (runPolls reg last st dbs).1)
      ∧ (runPolls reg last st dbs).2.2.Pairwise (fun a b => a.rowid < b.rowid) := by
  intro dbs
  induction dbs with
  | nil =>
    intro last st _
    simp [runPolls]
  | cons db dbs ih =>
    intro last st hs
    have hc := pollCycle_spec reg last st db (hs db (by simp))
    have hr := ih (pollCycle reg last st db).1 (pollCycle reg last st db).2.1
      (fun d hd => hs d (by simp [hd]))
    simp only [runPolls]
    refine ⟨le_trans hc.1 hr.1, ?_, ?_⟩
    · intro d hd
      rcases List.mem_append.mp hd with h1 | h2
      · obtain ⟨hgt', hle'⟩ := hc.2.1 d h1
        exact ⟨hgt', le_trans hle' hr.1⟩
      · obtain ⟨hgt', hle'⟩ := hr.2.1 d h2
        exact ⟨lt_of_le_of_lt hc.1 hgt', hle'⟩
    · rw [List.pairwise_append]
      refine ⟨hc.2.2, hr.2.2, ?_⟩
      intro a ha b hb
      exact lt_of_le_of_lt (hc.2.1 a ha).2 (hr.2.1 b hb).1

theorem le_initLast : ∀ (db : List MsgRow) (acc : Nat),
    acc ≤ db.foldl (fun a m => max a m.rowid) acc := by
  intro db
  induction db with
  | nil => intro acc; exact le_refl acc
  | cons m ms ih =>
    intro acc
    exact le_trans (le_max_left acc m.rowid) (ih (max acc m.rowid))

theorem mem_le_initLast : ∀ (db : List MsgRow) (acc : Nat) (m : MsgRow),
    m ∈ db → m.rowid ≤ db.foldl (fun a x => max a x.rowid) acc := by
  intro db
  induction db with
  | nil => intro acc m hm; exact absurd hm (List.not_mem_nil m)
  | cons x xs ih =>
    intro acc m hm
    rcases List.mem_cons.mp hm with rfl | hm'
    · exact le_trans (le_max_right acc m.rowid) (le_initLast xs (max acc m.rowid))
    · exact ih (max acc x.rowid) m hm'

/-- C3: In every run of the `IMessageChannel` poller: in a single cycle
every delivered row strictly exceeds the `lastProcessedRowId` at cycle
start, `lastProcessedRowId` never decreases, and deliveries are strictly
ascending in `ROWID`; and across any sequence of cycles started from the
`connect`-time maximum `ROWID`, the full delivery sequence is strictly
ascending (hence no `ROWID` is delivered twice) and no row already present
at connect time is ever delivered. -/
theorem imessage_poll_c3 :
    (∀ (reg : List (String × RegGroup)) (last : Nat) (st : Store)
        (db : List MsgRow), RowSorted db →
      last ≤ (pollCycle reg last st db).1
      ∧ (∀ d ∈ (pollCycle reg last st db).2.2,
          last < d.rowid ∧ d.rowid ≤ (pollCycle reg last st db).1)
      ∧ (pollCycle reg last st db).2.2.Pairwise (fun a b => a.rowid < b.rowid))
    ∧ (∀ (reg : List (String × RegGroup)) (st0 : Store) (db0 : List MsgRow)
        (dbs : List (List MsgRow)),
      (∀ db ∈ dbs, RowSorted db) →
      (runPolls reg (initLast db0) st0 dbs).2.2.Pairwise
        (fun a b => a.rowid < b.rowid)
      ∧ ∀ d ∈ (runPolls reg (initLast db0) st0 dbs).2.2,
          ∀ m0 ∈ db0, m0.rowid < d.rowid) := by
  constructor
  · intro reg last st db h
    exact pollCycle_spec reg last st db h
  · intro reg st0 db0 dbs hs
    have hr := runPolls_inv reg dbs (initLast db0) st0 hs
    refine ⟨hr.2.2, ?_⟩
    intro d hd m0 hm0
    exact lt_of_le_of_lt (mem_le_initLast db0 0 m0 hm0) (hr.2.1 d hd).1

/-- Witness for C3 at a concrete database trace. -/
theorem imessage_poll_c3_witness :
    (initLast [rowW1] ≤ (pollCycle [] (initLast [rowW1]) emptyStore [rowW1, rowW2]).1
      ∧ (∀ d ∈ (pollCycle [] (initLast [rowW1]) emptyStore [rowW1, rowW2]).2.2,
          initLast [rowW1] < d.rowid
          ∧ d.rowid ≤ (pollCycle [] (initLast [rowW1]) emptyStore [rowW1, rowW2]).1)
      ∧ (pollCycle [] (initLast [rowW1]) emptyStore [rowW1, rowW2]).2.2.Pairwise
          (fun a b => a.rowid < b.rowid))
    ∧ ((runPolls [] (initLast [rowW1]) emptyStore [[rowW1, rowW2]]).2.2.Pairwise
        (fun a b => a.rowid < b.rowid)
      ∧ ∀ d ∈ (runPolls [] (initLast [rowW1]) emptyStore [[rowW1, rowW2]]).2.2,
          ∀ m0 ∈ [rowW1], m0.rowid < d.rowid) :=
  ⟨imessage_poll_c3.1 [] (initLast [rowW1]) emptyStore [rowW1, rowW2] (by decide),
   imessage_poll_c3.2 [] emptyStore [rowW1] [[rowW1, rowW2]] (by decide)⟩

/-! ### The trigger pattern escapes every metacharacter (C9) -/

/-- Under ASCII case folding, only `@` itself folds to `@`. -/
theorem toLower_eq_at {a : Char} (h : a.toLower = '@') : a = '@' := by
  by_cases hc : a.toNat ≥ 65 ∧ a.toNat ≤ 90
  · exfalso
    have hv : Nat.isValidChar (a.toNat + 32) := Or.inl (by omega)
    have h' : Char.ofNat (a.toNat + 32) = '@' := by
      simpa [Char.toLower, hc] using h
    have h64 : (Char.ofNat (a.toNat + 32)).toNat = a.toNat + 32 := by
      rw [Char.ofNat, dif_pos hv]; rfl
    rw [h'] at h64
    have h64' : (64 : Nat) = a.toNat + 32 := by simpa using h64
    omega
  · have ha : a.toLower = a := by simp [Char.toLower, hc]
    exact ha.symm.trans h

theorem parseLits_cons_plain (c : Char) (rest : List Char)
    (h : c ∉ metachars) (hb : c ≠ '\\') :
    parseLits (c :: rest) = (parseLits rest).map (c :: ·) := by
  rw [parseLits.eq_def]
  show (if c = '\\' then _
      else if c ∈ metachars then none else (parseLits rest).map (c :: ·)) = _
  rw [if_neg hb, if_neg h]

theorem parseLits_cons_esc (d : Char) (rest : List Char) (h : d ∈ metachars) :
    parseLits ('\\' :: d :: rest) = (parseLits rest).map (d :: ·) := by
  rw [parseLits.eq_def]
  show (if ('\\' : Char) = '\\' then
      (if d ∈ metachars then (parseLits rest).map (d :: ·) else none)
    else _) = _
  rw [if_pos rfl, if_pos h]

theorem escape_roundtrip : ∀ s : List Char, parseLits (escapeRegex s) = some s := by
  intro s
  induction s with
  | nil => rfl
  | cons c cs ih =>
    by_cases h : c ∈ metachars
    · rw [show escapeRegex (c :: cs) = '\\' :: c :: escapeRegex cs from by
        simp [escapeRegex, h]]
      rw [parseLits_cons_esc c _ h, ih]
      rfl
    · have hb : c ≠ '\\' := by
        rintro rfl
        exact h (by decide)
      rw [show escapeRegex (c :: cs) = c :: escapeRegex cs from by
        simp [escapeRegex, h]]
      rw [parseLits_cons_plain c _ h hb, ih]
      rfl

theorem compileTrigger_pattern (name : String) :
    compileTrigger (triggerPatternString name).toList = some ('@' :: name.toList) := by
  have h1 : (triggerPatternString name).toList
      = '^' :: ('@' :: (escapeRegex name.toList ++ ['\\', 'b'])) := by
    simp [triggerPatternString, String.toList, String.data_append]
  rw [h1]
  simp only [compileTrigger]
  rw [show ('@' :: (escapeRegex name.toList ++ ['\\', 'b'])).reverse
      = 'b' :: '\\' :: ((escapeRegex name.toList).reverse ++ ['@']) from by simp]
  have h3 : ¬ ('@' ∈ metachars) := by decide
  have h4 : ¬ ('@' = '\\') := by decide
  simp [parseLits_cons_plain '@' _ h3 h4, escape_roundtrip]

theorem litMatcher_iff (nm s : List Char) :
    litMatcher ('@' :: nm) s = true ↔
      ∃ w rest, s = '@' :: (w ++ rest) ∧ ciEq nm w = true ∧
        (isWordOpt ('@' :: w).getLast? != isWordOpt rest.head?) = true := by
  unfold litMatcher
  rw [Bool.and_eq_true]
  constructor
  · rintro ⟨h1, h2⟩
    obtain ⟨s0, t, rfl, hci⟩ := (ciPref_iff _ s).mp h1
    cases s0 with
    | nil => simp [ciEq] at hci
    | cons b w =>
      simp only [ciEq, Bool.and_eq_true] at hci
      obtain ⟨hb, hw⟩ := hci
      have hb' : b = '@' := by
        refine toLower_eq_at ?_
        rw [beq_iff_eq] at hb
        rw [← hb]
        decide
      subst hb'
      have hlen : ('@' :: nm).length = ('@' :: w).length := by
        simp [ciEq_length _ _ hw]
      rw [show ('@' :: w) ++ t = ('@' :: w) ++ t from rfl, hlen,
        List.take_left, List.drop_left] at h2
      exact ⟨w, t, rfl, hw, h2⟩
  · rintro ⟨w, rest, hs, hw, hbd⟩
    have hs' : s = ('@' :: w) ++ rest := hs
    subst hs'
    have hlen : ('@' :: nm).length = ('@' :: w).length := by
      simp [ciEq_length _ _ hw]
    have hci : ciEq ('@' :: nm) ('@' :: w) = true := by
      simp only [ciEq, Bool.and_eq_true]
      exact ⟨by decide, hw⟩
    refine ⟨ciPref_of_ciEq_append _ _ _ hci, ?_⟩
    rw [hlen, List.take_left, List.drop_left]
    exact hbd

/-- C9: For every value of `ASSISTANT_NAME`, including names containing
regex metacharacters, the constructed `TRIGGER_PATTERN` compiles to the
anchored literal `@<name>` followed by `\b` (every metacharacter is
escaped), and it matches a string iff the string begins with `@` followed
by the literal assistant name at a word boundary, compared
case-insensitively. -/
theorem trigger_pattern_c9 :
    ∀ (name s : String),
      compileTrigger (triggerPatternString name).toList = some ('@' :: name.toList)
      ∧ triggerPatternTest name s = some (triggerTest name s)
      ∧ (triggerPatternTest name s = some true ↔ TriggerSpec name s) := by
  intro name s
  have hc := compileTrigger_pattern name
  refine ⟨hc, ?_, ?_⟩
  · unfold triggerPatternTest
    rw [hc]
    rfl
  · unfold triggerPatternTest
    rw [hc]
    simp only [Option.map_some', Option.some.injEq]
    exact (litMatcher_iff name.toList s.toList).trans Iff.rfl

end Shelby
